import Mathlib

/-!
# Verification of the SNS emulation core (`localstack/services/sns/sns_listener.py`)

Shallow embedding of the subscription registry, the filter-policy evaluator,
the fanout/delivery loop and the confirmation state machine of the SNS
listener, together with proofs of the specified properties.

Modelling conventions, used throughout:

* Python dicts (`SNS_SUBSCRIPTIONS`, `SUBSCRIPTION_STATUS`, `SNS_TAGS`,
  filter policies, message-attribute maps) are modelled as association
  lists in insertion order; `d.get(k)` is `dictGet`, `d[k] = v` is `dictSet`.
* `short_uid()` (and the other fresh-value generators, `uuid.uuid4()` and
  `timestamp_millis()`) are modelled by a counter: each draw yields the
  current counter value, a natural number, and bumps the counter.
* Python floats appearing as attribute values and numeric-filter operands
  are modelled as rationals.
* Exceptions are modelled with `Except`: a raised exception is `.error`.
* The three downstream transports (SQS send, Lambda invocation, outbound
  HTTP POST) are external collaborators; a single oracle
  `transport : String → Bool` decides, per subscription ARN, whether the
  transport call for that subscriber raises.
-/

/-- A scalar message-attribute / condition value: a string or a number.
The source stores attribute values as strings except that
`get_message_attributes` converts `Number`-typed values with `float(...)`;
`num` models exactly those float values. -/
inductive AttrVal where
  | str (s : String)
  | num (q : ℚ)
deriving DecidableEq, Repr

/-- The accumulated value of a run of decimal digits. -/
def digitsToNat (cs : List Char) : Nat :=
  cs.foldl (fun n c => 10 * n + (c.toNat - 48)) 0

/-- An unsigned decimal literal as accepted by Python's `float`: digits
with an optional single point, at least one digit overall (`"99"`,
`"0.5"`, `".5"`, `"5."`). -/
def parse_unsigned (cs : List Char) : Option ℚ :=
  let intPart := cs.takeWhile (fun c => c.isDigit)
  let rest := cs.dropWhile (fun c => c.isDigit)
  match rest with
  | [] => if intPart = [] then none else some (digitsToNat intPart : ℚ)
  | c :: frac =>
      if c = '.' ∧ frac.all (fun d => d.isDigit) ∧ (intPart ≠ [] ∨ frac ≠ []) then
        some ((digitsToNat intPart : ℚ) + (digitsToNat frac : ℚ) / (10 ^ frac.length : ℚ))
      else none

/-- `float(x)` on a string: an optionally signed decimal literal, or
`none` for the `ValueError` of anything else.  (The exponent,
infinity/nan and surrounding-whitespace spellings `float` also accepts
are not modelled; no specified behavior uses them.) -/
def parse_float (s : String) : Option ℚ :=
  match s.toList with
  | '+' :: rest => parse_unsigned rest
  | '-' :: rest => (parse_unsigned rest).map (fun q => -q)
  | cs => parse_unsigned cs

/-- `is_number(x)`: whether `float(x)` succeeds.  True for the float
values produced by `get_message_attributes` for `Number`-typed
attributes, and also for float-parseable *strings* such as `"99"` — the
source's `try: float(x)` accepts those, so a numeric string passes this
gate and reaches the comparison loop as a str. -/
def is_number : AttrVal → Bool
  | .num _ => true
  | .str s => (parse_float s).isSome

/-- One `(operator, operand)` pair read by the loop
`for i in range(0, len(conditions), 2)` of `evaluate_numeric_condition`.
The flat alternating token list of the source is modelled as the list of
pairs the loop reads (an odd-length list, an `IndexError` in the source,
is not representable). -/
abbrev NumericPair := String × ℚ

/-- The body of the numeric loop: each branch mirrors one
`if value <op> operand: return False` test of the source, run on the raw
attribute value, which past the `is_number` gate is a float or a
float-parseable string.  On a float the comparisons are numeric.  On a
string, Python never equates a str with a number, so the `=` branch
returns False (runtime-independent — `!=` does not raise); the four
ordered comparisons are modelled with Python 2's cross-type order (every
number sorts before every string); under Python 3 those four raise
`TypeError` instead, so only the `=` branch of the string case is relied
on by any theorem.  An unrecognized operator has no branch and the loop
just continues. -/
def numeric_pair_holds (value : AttrVal) (p : NumericPair) : Bool :=
  if p.1 = "=" then
    match value with
    | .num q => decide (q = p.2)
    | .str _ => false
  else if p.1 = ">" then
    match value with
    | .num q => !(decide (q ≤ p.2))
    | .str _ => true
  else if p.1 = "<" then
    match value with
    | .num q => !(decide (p.2 ≤ q))
    | .str _ => false
  else if p.1 = ">=" then
    match value with
    | .num q => !(decide (q < p.2))
    | .str _ => true
  else if p.1 = "<=" then
    match value with
    | .num q => !(decide (p.2 < q))
    | .str _ => false
  else true

/-- `evaluate_numeric_condition(conditions, value)`. -/
def evaluate_numeric_condition (conditions : List NumericPair) (value : AttrVal) : Bool :=
  if is_number value then conditions.all (numeric_pair_holds value)
  else false

/-- One filter condition, i.e. one element of a policy's condition list.
The dict shapes of the source become constructors: a bare value, and the
single-key dicts read by `evaluate_condition` via `condition.get(...)`.
A condition dict with an unrecognized key (fail closed, `return False`)
corresponds to no constructor; the source's Python-truthiness tests on
`condition.get(...)` (an empty list, empty string or empty token list is
falsy and falls through to `return False`) are kept as explicit guards in
`evaluate_condition`. -/
inductive Condition where
  | bare (v : AttrVal)
  | anythingBut (vs : List AttrVal)
  | startsWith (p : String)
  | numeric (pairs : List NumericPair)
deriving DecidableEq, Repr

/-- `evaluate_condition(value, condition)`.  `value.startswith(prefix)` on
a float raises `AttributeError` in the source; no specified behavior
reaches it and the model lets it evaluate to false. -/
def evaluate_condition (value : AttrVal) (condition : Condition) : Bool :=
  match condition with
  | .bare c => value = c
  | .anythingBut vs => if vs = [] then false else !(decide (value ∈ vs))
  | .startsWith p =>
      if p = "" then false
      else match value with
        | .str s => s.startsWith p
        | .num _ => false
  | .numeric pairs => if pairs = [] then false else evaluate_numeric_condition pairs value

/-- The `Value` entry of a message attribute.  For a `String.Array`-typed
attribute the source stores the textual list literal and recovers the
elements with `ast.literal_eval`; `arr` models the parsed list directly. -/
inductive AttrValue where
  | prim (v : AttrVal)
  | arr (vs : List AttrVal)
deriving DecidableEq, Repr

/-- A message attribute as built by `get_message_attributes`: the dict
keys `Type` and `Value`. -/
structure MsgAttribute where
  attrType : String
  attrValue : AttrValue
deriving DecidableEq, Repr

/-- `d.get(k)` on an association-list dict: the value of the first entry
with the given key. -/
def dictGet {α : Type} (k : String) : List (String × α) → Option α
  | [] => none
  | p :: rest => if p.1 = k then some p.2 else dictGet k rest

/-- `d[k] = v` on an association-list dict: overwrite in place if the key
is present, else append (insertion order, as for a Python dict). -/
def dictSet {α : Type} (k : String) (v : α) : List (String × α) → List (String × α)
  | [] => [(k, v)]
  | p :: rest => if p.1 = k then (k, v) :: rest else p :: dictSet k v rest

/-- A filter policy, `json.loads` of the stored `FilterPolicy` string: a
dict from attribute name to condition list.  The source wraps a non-list
entry as a singleton (`if type(conditions) is not list`), so an entry is
modelled directly as a list. -/
abbrev FilterPolicy := List (String × List Condition)

/-- The message-attribute dict of a publish request. -/
abbrev MsgAttributes := List (String × MsgAttribute)

/-- `evaluate_filter_policy_conditions(conditions, attribute)`.  For a
`String.Array`-typed attribute every condition is tried against every
parsed array element; otherwise against the scalar value.  The two
mismatched combinations cannot be produced by `get_message_attributes`
(for the first the source's `ast.literal_eval` raises; the model fails
closed). -/
def evaluate_filter_policy_conditions (conditions : List Condition)
    (attr : MsgAttribute) : Bool :=
  if attr.attrType = "String.Array" then
    match attr.attrValue with
    | .arr vs => vs.any (fun v => conditions.any (fun c => evaluate_condition v c))
    | .prim _ => false
  else
    match attr.attrValue with
    | .prim v => conditions.any (fun c => evaluate_condition v c)
    | .arr _ => false

/-- `check_filter_policy(filter_policy, message_attributes)`: the early
`return False` on a missing attribute or a failed criterion is the
conjunction below; `if not filter_policy: return True` is the empty
conjunction. -/
def check_filter_policy (filter_policy : FilterPolicy)
    (message_attributes : MsgAttributes) : Bool :=
  filter_policy.all fun criteria =>
    match dictGet criteria.1 message_attributes with
    | none => false
    | some attr => evaluate_filter_policy_conditions criteria.2 attr

/-- A subscription, the dict built by `do_subscribe`: the four plain
string keys and `FilterPolicy` are structured fields, every other key of
the single source dict lives in `attributes`.  `FilterPolicy` holds the
`json.loads` of the policy string passed to `do_subscribe`, `none` when
absent. -/
structure Subscription where
  TopicArn : String
  Endpoint : String
  Protocol : String
  SubscriptionArn : String
  FilterPolicy : Option FilterPolicy
  attributes : List (String × String)
deriving DecidableEq, Repr

/-- `sub[name] = value` on the subscription dict: the four plain string
fixed keys are overwritten in the structured fields (so a wire-supplied
attribute or a `SetSubscriptionAttributes` call CAN overwrite
`Endpoint`, as in the source); any other key is written into the bag.  A
`FilterPolicy` arriving through this raw-string route is stored in the
bag as opaque text and not re-parsed into the structured field — no
verified property reads a policy written this way. -/
def apply_attr (s : Subscription) (name value : String) : Subscription :=
  if name = "TopicArn" then { s with TopicArn := value }
  else if name = "Endpoint" then { s with Endpoint := value }
  else if name = "Protocol" then { s with Protocol := value }
  else if name = "SubscriptionArn" then { s with SubscriptionArn := value }
  else { s with attributes := dictSet name value s.attributes }

/-- One entry of `SUBSCRIPTION_STATUS`: the dict with keys `TopicArn`,
`Token` and `Status` written by `do_subscribe`.  Tokens (`short_uid()`)
are modelled as counter values. -/
structure SubStatus where
  TopicArn : String
  Token : Nat
  Status : String
deriving DecidableEq, Repr

/-- The module-level mutable state of `sns_listener.py`: the three global
dicts plus the fresh-value counter modelling the `short_uid()` supply. -/
structure SnsState where
  SNS_SUBSCRIPTIONS : List (String × List Subscription)
  SUBSCRIPTION_STATUS : List (String × SubStatus)
  SNS_TAGS : List (String × List (String × String))
  uid_counter : Nat
deriving DecidableEq, Repr

/-- The empty initial state (the dicts at module load). -/
def initialState : SnsState := ⟨[], [], [], 0⟩

/-- `do_create_topic(topic_arn)`. -/
def do_create_topic (st : SnsState) (topic_arn : String) : SnsState :=
  if dictGet topic_arn st.SNS_SUBSCRIPTIONS = none then
    { st with SNS_SUBSCRIPTIONS := st.SNS_SUBSCRIPTIONS ++ [(topic_arn, [])] }
  else st

/-- `do_delete_topic(topic_arn)` (`dict.pop(topic_arn, None)`). -/
def do_delete_topic (st : SnsState) (topic_arn : String) : SnsState :=
  { st with SNS_SUBSCRIPTIONS := st.SNS_SUBSCRIPTIONS.filter (fun p => p.1 ≠ topic_arn) }

/-- The loop body of `do_confirm_subscription`: a status entry whose
`Token` and `TopicArn` both match has its `Status` set to `Subscribed`;
any other entry is left alone. -/
def confirm_entry (topic_arn : String) (token : Nat) (v : SubStatus) : SubStatus :=
  if v.Token = token ∧ v.TopicArn = topic_arn then { v with Status := "Subscribed" } else v

/-- `do_confirm_subscription(topic_arn, token)`: every status entry whose
`Token` and `TopicArn` both match is set to `Subscribed`; nothing else
changes and no error is surfaced. -/
def do_confirm_subscription (st : SnsState) (topic_arn : String) (token : Nat) : SnsState :=
  { st with SUBSCRIPTION_STATUS := st.SUBSCRIPTION_STATUS.map fun p =>
      (p.1, confirm_entry topic_arn token p.2) }

/-- The `SubscriptionConfirmation` message that `do_subscribe` sends (via
`publish_message`, targeted at the one new subscription) for an http(s)
subscribe.  `token` is both the `Token` field and the token embedded in
the `SubscribeURL`
(`.../?Action=ConfirmSubscription&TopicArn=<topicArn>&Token=<token>`). -/
structure ConfirmationMsg where
  token : Nat
  topicArn : String
  targetSubscriptionArn : String
deriving DecidableEq, Repr

/-- `do_subscribe(topic_arn, endpoint, protocol, subscription_arn,
attributes, filter_policy)`.

* An endpoint already subscribed on the topic (the guard reads the
  `endpoint` argument): immediate `return` (idempotent subscribe),
  before any state write.
* Otherwise the dict is built from the arguments and
  `subscription.update(attributes)` merges the wire-supplied attributes
  over it (`apply_attr` fold) — this runs *after* the idempotency guard,
  so an `attributes` entry for `Endpoint` can store a duplicate
  endpoint; then `SNS_SUBSCRIPTIONS[topic_arn].append(...)` raises
  `KeyError` when the topic was never created, before any mutation.
* On success, the status entry for the `subscription_arn` argument is
  overwritten with a fresh token and status `Not Subscribed`, and for
  protocol http/https a confirmation message with its own, separately
  drawn token is sent through `publish_message`; that publish touches no
  registry state, so the model returns the message instead. -/
def do_subscribe (st : SnsState) (topic_arn endpoint protocol subscription_arn : String)
    (attributes : List (String × String)) (filter_policy : Option FilterPolicy) :
    Except String (SnsState × Option ConfirmationMsg) :=
  if ((dictGet topic_arn st.SNS_SUBSCRIPTIONS).getD []).any
      (fun s => s.Endpoint = endpoint) then
    .ok (st, none)
  else
    match dictGet topic_arn st.SNS_SUBSCRIPTIONS with
    | none => .error ("KeyError: " ++ topic_arn)
    | some subs =>
      let subscription : Subscription :=
        attributes.foldl (fun acc kv => apply_attr acc kv.1 kv.2)
          ⟨topic_arn, endpoint, protocol, subscription_arn, filter_policy, []⟩
      let token := st.uid_counter
      let subs' := dictSet topic_arn (subs ++ [subscription]) st.SNS_SUBSCRIPTIONS
      let statuses' :=
        dictSet subscription_arn ⟨topic_arn, token, "Not Subscribed"⟩ st.SUBSCRIPTION_STATUS
      let st1 : SnsState :=
        { st with
          SNS_SUBSCRIPTIONS := subs'
          SUBSCRIPTION_STATUS := statuses'
          uid_counter := st.uid_counter + 1 }
      if protocol = "http" ∨ protocol = "https" then
        .ok ({ st1 with uid_counter := st1.uid_counter + 1 },
             some ⟨st1.uid_counter, topic_arn, subscription_arn⟩)
      else .ok (st1, none)

/-- `do_unsubscribe(subscription_arn)`: filters the ARN out of every
topic's list; statuses and tags are untouched. -/
def do_unsubscribe (st : SnsState) (subscription_arn : String) : SnsState :=
  { st with SNS_SUBSCRIPTIONS := st.SNS_SUBSCRIPTIONS.map fun p =>
      (p.1, p.2.filter (fun sub => sub.SubscriptionArn ≠ subscription_arn)) }

/-- Replace the first list element satisfying `p` by its image under `f`. -/
def update_first {α : Type} (p : α → Bool) (f : α → α) : List α → List α
  | [] => []
  | x :: xs => if p x then f x :: xs else x :: update_first p f xs

/-- The `SetSubscriptionAttributes` handler: `get_subscription_by_arn`
returns the first subscription (in dict order, first topic first) with
the given ARN, and `sub[attr_name] = attr_value` writes the named key —
a fixed key such as `Endpoint` included — via `apply_attr`. -/
def set_subscription_attribute (st : SnsState) (subscription_arn name value : String) :
    SnsState :=
  let setAttr : Subscription → Subscription :=
    fun s => apply_attr s name value
  let inTopic : String × List Subscription → String × List Subscription :=
    fun p => (p.1, update_first (fun s => s.SubscriptionArn = subscription_arn) setAttr p.2)
  let subs' :=
    update_first (fun p => p.2.any (fun s => s.SubscriptionArn = subscription_arn))
      inTopic st.SNS_SUBSCRIPTIONS
  { st with SNS_SUBSCRIPTIONS := subs' }

/-- The dedup pass of `do_tag_resource`:
`[tag for idx, tag in enumerate(tags) if tag not in tags[:idx]]` —
duplicate identical `(Key, Value)` pairs are dropped, keeping the first
occurrence. -/
def dedup_tags (seen : List (String × String)) :
    List (String × String) → List (String × String)
  | [] => []
  | t :: rest =>
      if t ∈ seen then dedup_tags seen rest else t :: dedup_tags (t :: seen) rest

/-- One iteration of the merge loop of `do_tag_resource`:
`existing_tag_index` scans for the first existing tag with the same
`Key`; found ⇒ `existing_tags[existing_index] = item` (overwrite in
place), absent ⇒ `existing_tags.append(item)`.  The index-based
overwrite is rendered as the equivalent scan-and-replace. -/
def tag_merge_step : List (String × String) → String × String → List (String × String)
  | [], item => [item]
  | tag :: rest, item =>
      if item.1 = tag.1 then item :: rest else tag :: tag_merge_step rest item

/-- `do_tag_resource(topic_arn, tags)` on the topic's existing tag list
(`SNS_TAGS.get(topic_arn, [])`): dedup the submitted pairs, then merge
them in order. -/
def do_tag_resource (existing_tags tags : List (String × String)) :
    List (String × String) :=
  (dedup_tags [] tags).foldl tag_merge_step existing_tags

/-- `do_tag_resource` at the state level. -/
def do_tag_resource_state (st : SnsState) (topic_arn : String)
    (tags : List (String × String)) : SnsState :=
  let merged := do_tag_resource ((dictGet topic_arn st.SNS_TAGS).getD []) tags
  { st with SNS_TAGS := dictSet topic_arn merged st.SNS_TAGS }

/-- `do_untag_resource(topic_arn, tag_keys)` (via `_get_tags`, which
inserts an empty list for an unknown topic). -/
def do_untag_resource (st : SnsState) (topic_arn : String) (tag_keys : List String) :
    SnsState :=
  let remaining :=
    ((dictGet topic_arn st.SNS_TAGS).getD []).filter (fun t => !(tag_keys.contains t.1))
  { st with SNS_TAGS := dictSet topic_arn remaining st.SNS_TAGS }

/-- The registry operations reachable from the wire layer, for stating
whole-run invariants.  `subscribe` carries the arguments `do_subscribe`
receives after response parsing. -/
inductive Op where
  | createTopic (topic : String)
  | deleteTopic (topic : String)
  | subscribe (topic endpoint protocol arn : String)
      (attributes : List (String × String)) (filterPolicy : Option FilterPolicy)
  | unsubscribe (arn : String)
  | confirmSubscription (topic : String) (token : Nat)
  | setSubscriptionAttribute (arn name value : String)
  | tagResource (topic : String) (tags : List (String × String))
  | untagResource (topic : String) (keys : List String)
deriving DecidableEq, Repr

/-- The operation does not write the `Endpoint` key through the raw
attribute routes: its subscribe attributes and set-attribute name avoid
`Endpoint`.  Operations violating this can store duplicate endpoints
(see the C2 counterexample), so the unique-endpoint invariant is proved
under it. -/
def op_preserves_endpoint_key : Op → Prop
  | .subscribe _ _ _ _ attrs _ => ∀ kv ∈ attrs, kv.1 ≠ "Endpoint"
  | .setSubscriptionAttribute _ name _ => name ≠ "Endpoint"
  | _ => True

/-- Apply one operation.  A `KeyError` from `do_subscribe` propagates out
of the request before any mutation, leaving the state unchanged. -/
def applyOp (st : SnsState) : Op → SnsState
  | .createTopic t => do_create_topic st t
  | .deleteTopic t => do_delete_topic st t
  | .subscribe t e p arn attrs fp =>
      match do_subscribe st t e p arn attrs fp with
      | .ok (st', _) => st'
      | .error _ => st
  | .unsubscribe arn => do_unsubscribe st arn
  | .confirmSubscription t tok => do_confirm_subscription st t tok
  | .setSubscriptionAttribute arn n v => set_subscription_attribute st arn n v
  | .tagResource t tags => do_tag_resource_state st t tags
  | .untagResource t keys => do_untag_resource st t keys

/-- Run a sequence of operations from the initial (module-load) state. -/
def runOps (ops : List Op) : SnsState :=
  ops.foldl applyOp initialState

/-- The `Status` field of a subscription ARN's confirmation entry. -/
def statusOf (subscription_arn : String) (st : SnsState) : Option String :=
  (dictGet subscription_arn st.SUBSCRIPTION_STATUS).map (fun v => v.Status)

/-- Every stored confirmation token was drawn from the counter, hence is
below it.  Holds in every reachable state and makes fresh draws distinct
from every stored token. -/
def tokensFresh (st : SnsState) : Prop :=
  ∀ p ∈ st.SUBSCRIPTION_STATUS, p.2.Token < st.uid_counter

/-- A publish request (`req_data`), with the wire-format fields already
parsed: `Message`, optional `Subject` and `MessageStructure`, the
`MessageAttributes.entry.N.*` entries as the attribute dict that
`get_message_attributes` builds, and the optional `Type` field (named
`msgType` here, `Type` being reserved). -/
structure PublishReq where
  Message : String
  Subject : Option String
  MessageStructure : Option String
  MessageAttributes : MsgAttributes
  msgType : Option String
deriving DecidableEq, Repr

/-- `get_message_attributes(req_data)`: the wire-format walk over
`MessageAttributes.entry.N.*` is modelled as reading the already parsed
dict (with `Number`-typed values already converted by `float`, i.e.
`AttrVal.num`). -/
def get_message_attributes (req_data : PublishReq) : MsgAttributes :=
  req_data.MessageAttributes

/-- `is_raw_message_delivery(susbcriber)` (spelling from the source):
`susbcriber.get('RawMessageDelivery') in ('true', True, 'True')`.  The
attribute bag holds wire strings, so the boolean `True` member of the
tuple cannot occur. -/
def is_raw_message_delivery (susbcriber : Subscription) : Bool :=
  match dictGet "RawMessageDelivery" susbcriber.attributes with
  | some v => v = "true" || v = "True"
  | none => false

/-- Opening brace character (written via its code point). -/
def lbraceChar : Char := Char.ofNat 123

/-- Closing brace character (written via its code point). -/
def rbraceChar : Char := Char.ofNat 125

/-- Drop leading JSON whitespace. -/
def skip_ws (cs : List Char) : List Char :=
  cs.dropWhile (fun c => c == ' ' || c == '\n' || c == '\t' || c == '\r')

/-- After leading whitespace, consume the expected character. -/
def expect_char (c : Char) (cs : List Char) : Option (List Char) :=
  match skip_ws cs with
  | [] => none
  | d :: rest => if d == c then some rest else none

/-- Consume up to the closing double quote of a string literal (the
opening quote already consumed). -/
def take_quoted : List Char → Option (String × List Char)
  | [] => none
  | c :: rest =>
      if c == '"' then some ("", rest)
      else match take_quoted rest with
        | some (s, r) => some (String.singleton c ++ s, r)
        | none => none

/-- One `"key": "value"` member of a JSON object. -/
def parse_json_pair (cs : List Char) : Option ((String × String) × List Char) := do
  let cs1 ← expect_char '"' cs
  let (k, cs2) ← take_quoted cs1
  let cs3 ← expect_char ':' cs2
  let cs4 ← expect_char '"' cs3
  let (v, cs5) ← take_quoted cs4
  some ((k, v), cs5)

/-- The members of a JSON object after the opening brace (first member
mandatory), with fuel for termination. -/
def parse_json_members (fuel : Nat) (cs : List Char) (acc : List (String × String)) :
    Option (List (String × String) × List Char) :=
  match fuel with
  | 0 => none
  | fuel' + 1 =>
    match parse_json_pair cs with
    | none => none
    | some (kv, cs1) =>
      match expect_char ',' cs1 with
      | some cs2 => parse_json_members fuel' cs2 (acc ++ [kv])
      | none =>
        match expect_char rbraceChar cs1 with
        | some rest => some (acc ++ [kv], rest)
        | none => none

/-- `json.loads(message)` for the `MessageStructure=json` dispatch,
modelled for the payload shape that dispatch consumes: a flat JSON object
whose keys and values are string literals (no escape sequences).  `none`
models the `ValueError` of `json.loads` on anything else. -/
def parse_json_object (s : String) : Option (List (String × String)) :=
  match expect_char lbraceChar s.toList with
  | none => none
  | some cs =>
    match expect_char rbraceChar cs with
    | some rest => if skip_ws rest = [] then some [] else none
    | none =>
      match parse_json_members (s.length + 1) cs [] with
      | some (obj, rest) => if skip_ws rest = [] then some obj else none
      | none => none

/-- The envelope dict built by `create_sns_message_body` (its `json.dumps`
is the wire body; the dict is kept structured).  `MessageId`
(`uuid.uuid4()`), `Timestamp` (`timestamp_millis()`) and
`unsubscribeToken` (the `short_uid()` inside `UnsubscribeURL`,
`.../?Action=Unsubscribe&TopicArn=<TopicArn>&Token=<token>`) are draws
from the fresh-value supply. -/
structure SnsEnvelope where
  msgType : String
  MessageId : Nat
  TopicArn : String
  Message : String
  Timestamp : Nat
  SignatureVersion : String
  Signature : String
  SigningCertURL : String
  unsubscribeToken : Nat
  Subject : Option String
  MessageAttributes : MsgAttributes
deriving DecidableEq, Repr

/-- A delivered message body: the literal message text (raw delivery) or
the JSON envelope. -/
inductive SnsBody where
  | raw (text : String)
  | enveloped (envelope : SnsEnvelope)
deriving DecidableEq, Repr

/-- `create_sns_message_body(subscriber, req_data)`.  `fresh` stands for
the fresh-value supply consumed by the envelope branch.  Raw delivery
returns the message text verbatim before any other branch; the
`MessageStructure=json` branch selects `message.get(protocol,
message['default'])` and raises when the `default` key is also missing.
(The Python-2 `raw-unicode-escape` fixup is a no-op under Python 3 and is
not modelled.) -/
def create_sns_message_body (subscriber : Subscription) (req_data : PublishReq)
    (fresh : Nat) : Except String SnsBody :=
  let message := req_data.Message
  if is_raw_message_delivery subscriber then .ok (.raw message)
  else
    let sel : Except String String :=
      if req_data.MessageStructure = some "json" then
        match parse_json_object message with
        | none => .error "json.loads: invalid message payload"
        | some obj =>
          match dictGet subscriber.Protocol obj with
          | some m => .ok m
          | none =>
            match dictGet "default" obj with
            | some m => .ok m
            | none => .error "Unable to find default key in message payload"
      else .ok message
    match sel with
    | .error e => .error e
    | .ok selected =>
      .ok (.enveloped
        ⟨req_data.msgType.getD "Notification", fresh + 1, subscriber.TopicArn, selected,
         fresh + 2, "1", "EXAMPLEpH+..",
         "https://sns.us-east-1.amazonaws.com/SimpleNotificationService-0000000000000000000000.pem",
         fresh, req_data.Subject, get_message_attributes req_data⟩)

/-- Spec-side description of the key list after a tag merge: a submitted
key already present leaves the key list unchanged (its value is
overwritten in place), a new key is appended. -/
def merged_tag_keys (ks : List String) (ts : List (String × String)) : List String :=
  ts.foldl (fun acc t => if t.1 ∈ acc then acc else acc ++ [t.1]) ks

/-- No topic holds two subscriptions with the same endpoint. -/
def endpointsNodup (st : SnsState) : Prop :=
  ∀ p ∈ st.SNS_SUBSCRIPTIONS, (p.2.map Subscription.Endpoint).Nodup

/-- Tag keys of every topic are pairwise distinct. -/
def tagKeysNodup (st : SnsState) : Prop :=
  ∀ p ∈ st.SNS_TAGS, (p.2.map Prod.fst).Nodup

/-! ## Shared lemmas about the association-list dictionaries -/

theorem dictGet_eq_some_mem {α : Type} {k : String} {v : α} :
    ∀ {l : List (String × α)}, dictGet k l = some v → (k, v) ∈ l := by
  intro l
  induction l with
  | nil => intro h; simp [dictGet] at h
  | cons p rest ih =>
    obtain ⟨pk, pv⟩ := p
    intro h
    by_cases hk : pk = k
    · subst hk
      simp [dictGet] at h
      subst h
      exact List.mem_cons_self _ _
    · simp [dictGet, hk] at h
      exact List.mem_cons_of_mem _ (ih h)

theorem mem_dictSet {α : Type} {k : String} {v : α} {p : String × α} :
    ∀ {l : List (String × α)}, p ∈ dictSet k v l → p = (k, v) ∨ p ∈ l := by
  intro l
  induction l with
  | nil => intro h; simp [dictSet] at h; exact Or.inl h
  | cons q rest ih =>
    intro h
    by_cases hk : q.1 = k
    · simp [dictSet, hk] at h
      rcases h with h | h
      · exact Or.inl h
      · exact Or.inr (List.mem_cons_of_mem _ h)
    · simp [dictSet, hk] at h
      rcases h with h | h
      · exact Or.inr (by simp [h])
      · rcases ih h with h' | h'
        · exact Or.inl h'
        · exact Or.inr (List.mem_cons_of_mem _ h')

theorem dictGet_dictSet {α : Type} (k k' : String) (v : α) :
    ∀ l : List (String × α),
      dictGet k' (dictSet k v l) = if k' = k then some v else dictGet k' l := by
  intro l
  induction l with
  | nil =>
    by_cases h : k' = k
    · subst h; simp [dictSet, dictGet]
    · simp [dictSet, dictGet, h, Ne.symm h]
  | cons q rest ih =>
    obtain ⟨qk, qv⟩ := q
    by_cases hk : qk = k
    · subst hk
      by_cases h : k' = qk
      · subst h; simp [dictSet, dictGet]
      · simp [dictSet, dictGet, h, Ne.symm h]
    · by_cases h : qk = k'
      · subst h
        have hne : ¬(qk = k) := hk
        simp [dictSet, dictGet, hk, Ne.symm hne]
      · simp [dictSet, dictGet, hk, h, ih]

theorem dictGet_map_value {α : Type} (f : α → α) (k : String) :
    ∀ l : List (String × α),
      dictGet k (l.map (fun p => (p.1, f p.2))) = (dictGet k l).map f := by
  intro l
  induction l with
  | nil => simp [dictGet]
  | cons q rest ih =>
    by_cases hq : q.1 = k <;> simp [dictGet, hq, ih]

theorem map_eq_self_of_forall {α : Type} {f : α → α} :
    ∀ {l : List α}, (∀ a ∈ l, f a = a) → l.map f = l := by
  intro l
  induction l with
  | nil => intro _; rfl
  | cons x xs ih =>
    intro h
    simp only [List.map_cons]
    rw [h x (by simp), ih (fun a ha => h a (List.mem_cons_of_mem _ ha))]

/-! ## C3: filter-policy AND/OR semantics -/

theorem check_filter_policy_true_iff (policy : FilterPolicy) (attrs : MsgAttributes) :
    check_filter_policy policy attrs = true ↔
      ∀ p ∈ policy, ∃ attr, dictGet p.1 attrs = some attr ∧
        evaluate_filter_policy_conditions p.2 attr = true := by
  simp only [check_filter_policy, List.all_eq_true]
  constructor
  · intro h p hp
    have := h p hp
    cases hget : dictGet p.1 attrs with
    | none => rw [hget] at this; simp at this
    | some attr => rw [hget] at this; exact ⟨attr, rfl, this⟩
  · intro h p hp
    obtain ⟨attr, hget, hev⟩ := h p hp
    rw [hget]
    exact hev

/-- C3.  The filter-policy evaluator: an empty (or absent, decoded as
empty) policy matches every message; a non-empty policy rejects whenever
a named attribute is missing; a policy matches exactly when every
criterion finds its attribute and some condition of its list matches it
(conditions of one criterion are ORed, criteria are ANDed); for a scalar
(non-`String.Array`) attribute the condition list evaluates to true
exactly when some single condition matches the value. -/
theorem check_filter_policy_and_or_semantics :
    (∀ attrs : MsgAttributes, check_filter_policy [] attrs = true) ∧
    (∀ (policy : FilterPolicy) (attrs : MsgAttributes) (name : String)
        (conds : List Condition), (name, conds) ∈ policy → dictGet name attrs = none →
        check_filter_policy policy attrs = false) ∧
    (∀ (policy : FilterPolicy) (attrs : MsgAttributes),
        check_filter_policy policy attrs = true ↔
          ∀ p ∈ policy, ∃ attr, dictGet p.1 attrs = some attr ∧
            evaluate_filter_policy_conditions p.2 attr = true) ∧
    (∀ (conds : List Condition) (t : String) (v : AttrVal), t ≠ "String.Array" →
        (evaluate_filter_policy_conditions conds ⟨t, .prim v⟩ = true ↔
          ∃ c ∈ conds, evaluate_condition v c = true)) := by
  refine ⟨fun attrs => rfl, ?_, check_filter_policy_true_iff, ?_⟩
  · intro policy attrs name conds hmem hnone
    by_contra hne
    have htrue : check_filter_policy policy attrs = true := by
      cases h : check_filter_policy policy attrs
      · exact absurd h hne
      · rfl
    obtain ⟨attr, hget, _⟩ := (check_filter_policy_true_iff policy attrs).mp htrue
      (name, conds) hmem
    rw [hnone] at hget
    exact Option.noConfusion hget
  · intro conds t v ht
    simp [evaluate_filter_policy_conditions, ht, List.any_eq_true]

/-- C3 witness: a concrete policy over attribute `a` rejects a message
lacking `a`, by the theorem; the empty policy accepts it. -/
theorem check_filter_policy_and_or_semantics_witness :
    check_filter_policy [] [("b", ⟨"String", .prim (.str "1")⟩)] = true ∧
    check_filter_policy [("a", [Condition.bare (.str "x")])]
      [("b", ⟨"String", .prim (.str "1")⟩)] = false :=
  ⟨check_filter_policy_and_or_semantics.1 _,
   check_filter_policy_and_or_semantics.2.1 _ _ "a" [Condition.bare (.str "x")]
     (by simp) rfl⟩

/-! ## C6: numeric filter conditions -/

theorem numeric_pair_holds_iff (q : ℚ) (p : NumericPair) :
    numeric_pair_holds (.num q) p = true ↔
      ((p.1 = "=" → q = p.2) ∧ (p.1 = ">" → p.2 < q) ∧ (p.1 = "<" → q < p.2) ∧
       (p.1 = ">=" → p.2 ≤ q) ∧ (p.1 = "<=" → q ≤ p.2)) := by
  obtain ⟨op, r⟩ := p
  have d1 : ("=" : String) ≠ ">" := by decide
  have d2 : ("=" : String) ≠ "<" := by decide
  have d3 : ("=" : String) ≠ ">=" := by decide
  have d4 : ("=" : String) ≠ "<=" := by decide
  have d5 : (">" : String) ≠ "=" := by decide
  have d6 : (">" : String) ≠ "<" := by decide
  have d7 : (">" : String) ≠ ">=" := by decide
  have d8 : (">" : String) ≠ "<=" := by decide
  have d9 : ("<" : String) ≠ "=" := by decide
  have d10 : ("<" : String) ≠ ">" := by decide
  have d11 : ("<" : String) ≠ ">=" := by decide
  have d12 : ("<" : String) ≠ "<=" := by decide
  have d13 : (">=" : String) ≠ "=" := by decide
  have d14 : (">=" : String) ≠ ">" := by decide
  have d15 : (">=" : String) ≠ "<" := by decide
  have d16 : (">=" : String) ≠ "<=" := by decide
  have d17 : ("<=" : String) ≠ "=" := by decide
  have d18 : ("<=" : String) ≠ ">" := by decide
  have d19 : ("<=" : String) ≠ "<" := by decide
  have d20 : ("<=" : String) ≠ ">=" := by decide
  by_cases h1 : op = "="
  · subst h1; simp [numeric_pair_holds, d1, d2, d3, d4]
  · by_cases h2 : op = ">"
    · subst h2; simp [numeric_pair_holds, d5, d6, d7, d8, not_le]
    · by_cases h3 : op = "<"
      · subst h3; simp [numeric_pair_holds, d9, d10, d11, d12, not_le]
      · by_cases h4 : op = ">="
        · subst h4; simp [numeric_pair_holds, d13, d14, d15, d16, not_lt]
        · by_cases h5 : op = "<="
          · subst h5; simp [numeric_pair_holds, d17, d18, d19, d20, not_lt]
          · simp [numeric_pair_holds, h1, h2, h3, h4, h5]

/-- C6 (amended).  A numeric condition (a flat alternating
operator/operand sequence, read pairwise) matches a *number* value (a
float, as `get_message_attributes` produces for `Number`-typed
attributes) exactly when every operator/operand pair holds of it
simultaneously, with the five operators given their natural numeric
semantics; a value whose `float()` parse fails makes the condition
evaluate to false.  Natural numeric semantics do **not** extend to
float-parseable string values: such a value passes the `is_number` gate
but is compared as a str, so an `=` pair rejects it even when it parses
to exactly the operand (see the counterexample).  Concretely (spec §8),
for policy `a: [numeric [>, 0, <=, 100]]`: `a = 99` matches, `a = 111`
does not, and a non-numeric `a = "x"` does not. -/
theorem evaluate_numeric_condition_semantics :
    (∀ (conditions : List NumericPair) (s : String), is_number (.str s) = false →
        evaluate_numeric_condition conditions (.str s) = false) ∧
    (∀ (conditions : List NumericPair) (q : ℚ),
        evaluate_numeric_condition conditions (.num q) = true ↔
          ∀ p ∈ conditions,
            (p.1 = "=" → q = p.2) ∧ (p.1 = ">" → p.2 < q) ∧ (p.1 = "<" → q < p.2) ∧
            (p.1 = ">=" → p.2 ≤ q) ∧ (p.1 = "<=" → q ≤ p.2)) ∧
    (∀ (s : String) (q : ℚ) (conditions : List NumericPair),
        is_number (.str s) = true → ("=", q) ∈ conditions →
        evaluate_numeric_condition conditions (.str s) = false) ∧
    (check_filter_policy [("a", [Condition.numeric [(">", 0), ("<=", 100)]])]
        [("a", ⟨"Number", .prim (.num 99)⟩)] = true) ∧
    (check_filter_policy [("a", [Condition.numeric [(">", 0), ("<=", 100)]])]
        [("a", ⟨"Number", .prim (.num 111)⟩)] = false) ∧
    (check_filter_policy [("a", [Condition.numeric [(">", 0), ("<=", 100)]])]
        [("a", ⟨"String", .prim (.str "x")⟩)] = false) := by
  refine ⟨?_, ?_, ?_, by decide, by decide, by decide⟩
  · intro conditions s h
    simp [evaluate_numeric_condition, h]
  · intro conditions q
    simp only [evaluate_numeric_condition, is_number, if_pos, List.all_eq_true]
    constructor
    · intro h p hp
      exact (numeric_pair_holds_iff q p).mp (h p hp)
    · intro h p hp
      exact (numeric_pair_holds_iff q p).mpr (h p hp)
  · intro s q conditions hnum hmem
    rw [evaluate_numeric_condition, if_pos hnum]
    cases hall : conditions.all (numeric_pair_holds (.str s))
    · rfl
    · exfalso
      have := List.all_eq_true.mp hall _ hmem
      simp [numeric_pair_holds] at this

/-- C6 counterexample.  The original claim — the condition matches
exactly when the value is numeric and every pair holds of it — is false
for numeric *strings*: `"99"` is numeric (`float` parses it, so it
passes the source's `is_number` gate) and the pair `(=, 99)` holds of
its numeric value, yet `evaluate_numeric_condition(['=', 99], '99')`
runs `'99' != 99`, which is True in Python (mixed types never compare
equal), and returns False. -/
theorem numeric_condition_numeric_string_counterexample :
    parse_float "99" = some 99 ∧
    is_number (.str "99") = true ∧
    numeric_pair_holds (.num 99) ("=", 99) = true ∧
    evaluate_numeric_condition [("=", 99)] (.str "99") = false :=
  ⟨by decide, by decide, by decide, by decide⟩

/-- C6 witness: the pairwise-AND reading instantiated at the concrete
condition `[>, 0, <=, 100]` and value `99`. -/
theorem evaluate_numeric_condition_semantics_witness :
    evaluate_numeric_condition [(">", 0), ("<=", 100)] (.num 99) = true :=
  (evaluate_numeric_condition_semantics.2.1 [(">", 0), ("<=", 100)] 99).mpr
    (by intro p hp; fin_cases hp <;> constructor <;> simp +decide)

/-! ## C9: array-typed attributes -/

/-- C9.  For an attribute whose declared type is `String.Array`, a
condition list matches exactly when some element of the parsed array
value satisfies some condition of the list; in particular (spec §8) the
policy `k: ["y"]` matches the attribute `["x", "y"]`. -/
theorem array_attribute_any_element_matches :
    (∀ (conditions : List Condition) (vs : List AttrVal),
        evaluate_filter_policy_conditions conditions ⟨"String.Array", .arr vs⟩ = true ↔
          ∃ v ∈ vs, ∃ c ∈ conditions, evaluate_condition v c = true) ∧
    check_filter_policy [("k", [Condition.bare (.str "y")])]
      [("k", ⟨"String.Array", .arr [.str "x", .str "y"]⟩)] = true := by
  refine ⟨?_, by decide⟩
  intro conditions vs
  simp [evaluate_filter_policy_conditions, List.any_eq_true]

/-! ## C7: raw message delivery -/

/-- C7.  With raw message delivery enabled the built body is the literal
message text of the request — the raw-delivery test returns before any
enveloping or protocol inspection, so the result is independent of the
subscriber's protocol and of `MessageStructure`. -/
theorem raw_delivery_body_is_message (subscriber : Subscription) (req_data : PublishReq)
    (fresh : Nat) (h : is_raw_message_delivery subscriber = true) :
    create_sns_message_body subscriber req_data fresh = .ok (.raw req_data.Message) := by
  simp [create_sns_message_body, h]

/-- C7 witness: a raw-delivery subscriber (of non-http protocol, with a
json `MessageStructure` that would otherwise be enveloped or rejected)
receives exactly the message text. -/
theorem raw_delivery_body_is_message_witness :
    is_raw_message_delivery ⟨"t", "e", "sqs", "A", none, [("RawMessageDelivery", "true")]⟩
       = true ∧
    create_sns_message_body ⟨"t", "e", "sqs", "A", none, [("RawMessageDelivery", "true")]⟩
      ⟨"hello", none, some "json", [], none⟩ 0 = .ok (.raw "hello") :=
  ⟨rfl, raw_delivery_body_is_message _ _ 0 rfl⟩

/-! ## C8: tag deduplication and merge -/

theorem tag_merge_step_keys (item : String × String) :
    ∀ existing : List (String × String),
      (tag_merge_step existing item).map Prod.fst =
        if item.1 ∈ existing.map Prod.fst then existing.map Prod.fst
        else existing.map Prod.fst ++ [item.1] := by
  intro existing
  induction existing with
  | nil => simp [tag_merge_step]
  | cons tag rest ih =>
    by_cases h : item.1 = tag.1
    · simp [tag_merge_step, h]
    · have h' : ¬(tag.1 = item.1) := fun hc => h hc.symm
      by_cases hm : item.1 ∈ rest.map Prod.fst
      · simp [tag_merge_step, h, h', hm, ih]
      · simp [tag_merge_step, h, h', hm, ih]

theorem foldl_tag_merge_keys (ts : List (String × String)) :
    ∀ existing : List (String × String),
      ((ts.foldl tag_merge_step existing).map Prod.fst) =
        merged_tag_keys (existing.map Prod.fst) ts := by
  induction ts with
  | nil => intro existing; simp [merged_tag_keys]
  | cons t rest ih =>
    intro existing
    simp only [List.foldl_cons, merged_tag_keys] at ih ⊢
    rw [ih (tag_merge_step existing t), tag_merge_step_keys]

theorem merged_tag_keys_nodup (ts : List (String × String)) :
    ∀ ks : List String, ks.Nodup → (merged_tag_keys ks ts).Nodup := by
  induction ts with
  | nil => intro ks h; exact h
  | cons t rest ih =>
    intro ks h
    simp only [merged_tag_keys, List.foldl_cons]
    by_cases hm : t.1 ∈ ks
    · simpa [merged_tag_keys, hm] using ih ks h
    · have : (ks ++ [t.1]).Nodup := by
        simp [List.nodup_append, h, hm]
      simpa [merged_tag_keys, hm] using ih (ks ++ [t.1]) this

/-- C8.  `do_tag_resource` first drops duplicate identical pairs (keeping
the first occurrence, `dedup_tags`), then merges into the existing list:
the key list afterwards is the existing key list with the genuinely new
keys appended in order (`merged_tag_keys`) — an existing key keeps its
position, its value being overwritten in place — and a tag list with
pairwise-distinct keys keeps that property, so a topic's tag list never
holds two entries with the same key.  Concretely (spec §8): tagging with
`[(1, a), (1, a)]` and then `[(1, b)]` yields exactly `[(1, b)]`. -/
theorem do_tag_resource_dedup_merge :
    (∀ existing tags : List (String × String),
        (do_tag_resource existing tags).map Prod.fst =
          merged_tag_keys (existing.map Prod.fst) (dedup_tags [] tags)) ∧
    (∀ existing tags : List (String × String), (existing.map Prod.fst).Nodup →
        ((do_tag_resource existing tags).map Prod.fst).Nodup) ∧
    (do_tag_resource (do_tag_resource [] [("1", "a"), ("1", "a")]) [("1", "b")] =
        [("1", "b")]) := by
  refine ⟨?_, ?_, by decide⟩
  · intro existing tags
    exact foldl_tag_merge_keys (dedup_tags [] tags) existing
  · intro existing tags h
    have hkeys : (do_tag_resource existing tags).map Prod.fst =
        merged_tag_keys (existing.map Prod.fst) (dedup_tags [] tags) :=
      foldl_tag_merge_keys (dedup_tags [] tags) existing
    rw [hkeys]
    exact merged_tag_keys_nodup _ _ h

/-- C8 witness: the key-distinctness part instantiated at a concrete
existing list with distinct keys and a submitted list containing both a
duplicate pair and an overwriting pair. -/
theorem do_tag_resource_dedup_merge_witness :
    (([("k1", "v1"), ("k2", "v2")].map Prod.fst).Nodup : Prop) ∧
    ((do_tag_resource [("k1", "v1"), ("k2", "v2")]
        [("k1", "w"), ("k1", "w"), ("k3", "v3")]).map Prod.fst).Nodup ∧
    do_tag_resource [("k1", "v1"), ("k2", "v2")]
        [("k1", "w"), ("k1", "w"), ("k3", "v3")] =
      [("k1", "w"), ("k2", "v2"), ("k3", "v3")] :=
  ⟨by decide, do_tag_resource_dedup_merge.2.1 _ _ (by decide), by decide⟩

/-! ## C10: subscribe is partial in the topic -/

/-- C10.  `do_subscribe` never creates a topic implicitly: when the topic
ARN has no entry in `SNS_SUBSCRIPTIONS` (so no endpoint can be present
either) the append raises an unhandled `KeyError`; conversely, when the
topic exists the call returns normally. -/
theorem subscribe_unknown_topic_keyerror :
    (∀ (st : SnsState) (t e p arn : String) (attrs : List (String × String))
        (fp : Option FilterPolicy), dictGet t st.SNS_SUBSCRIPTIONS = none →
        do_subscribe st t e p arn attrs fp = .error ("KeyError: " ++ t)) ∧
    (∀ (st : SnsState) (t e p arn : String) (attrs : List (String × String))
        (fp : Option FilterPolicy), (dictGet t st.SNS_SUBSCRIPTIONS).isSome →
        ∃ r, do_subscribe st t e p arn attrs fp = .ok r) := by
  constructor
  · intro st t e p arn attrs fp h
    simp [do_subscribe, h]
  · intro st t e p arn attrs fp h
    rw [Option.isSome_iff_exists] at h
    obtain ⟨subs, hsubs⟩ := h
    cases hres : do_subscribe st t e p arn attrs fp with
    | ok r => exact ⟨r, rfl⟩
    | error msg =>
      exfalso
      rw [do_subscribe] at hres
      by_cases hend : (((dictGet t st.SNS_SUBSCRIPTIONS).getD []).any
          (fun s => s.Endpoint = e)) = true
      · rw [if_pos hend] at hres
        exact Except.noConfusion hres
      · rw [if_neg hend, hsubs] at hres
        simp only [] at hres
        by_cases hp : p = "http" ∨ p = "https"
        · rw [if_pos hp] at hres
          exact Except.noConfusion hres
        · rw [if_neg hp] at hres
          exact Except.noConfusion hres

/-- C10 witness: subscribing on the never-created topic of the initial
state raises the `KeyError`; after `do_create_topic` the same call
succeeds. -/
theorem subscribe_unknown_topic_keyerror_witness :
    do_subscribe initialState "t" "e" "sqs" "A" [] none = .error ("KeyError: " ++ "t") ∧
    ∃ r, do_subscribe (do_create_topic initialState "t") "t" "e" "sqs" "A" [] none =
      .ok r :=
  ⟨subscribe_unknown_topic_keyerror.1 initialState "t" "e" "sqs" "A" [] none rfl,
   subscribe_unknown_topic_keyerror.2 (do_create_topic initialState "t")
     "t" "e" "sqs" "A" [] none rfl⟩

/-! ## C4 / C5: the confirmation state machine -/

theorem do_confirm_statuses (st : SnsState) (t : String) (tok : Nat) :
    (do_confirm_subscription st t tok).SUBSCRIPTION_STATUS =
      st.SUBSCRIPTION_STATUS.map (fun p => (p.1, confirm_entry t tok p.2)) := rfl

theorem do_confirm_dictGet (st : SnsState) (t : String) (tok : Nat) (arn : String) :
    dictGet arn (do_confirm_subscription st t tok).SUBSCRIPTION_STATUS =
      (dictGet arn st.SUBSCRIPTION_STATUS).map (confirm_entry t tok) := by
  rw [do_confirm_statuses]
  exact dictGet_map_value (confirm_entry t tok) arn st.SUBSCRIPTION_STATUS

/-- When no status entry matches both token and topic, the confirm pass
leaves the state untouched. -/
theorem do_confirm_noop (st : SnsState) (t : String) (tok : Nat)
    (h : ∀ p ∈ st.SUBSCRIPTION_STATUS, ¬(p.2.Token = tok ∧ p.2.TopicArn = t)) :
    do_confirm_subscription st t tok = st := by
  have hmap : st.SUBSCRIPTION_STATUS.map (fun p => (p.1, confirm_entry t tok p.2)) =
      st.SUBSCRIPTION_STATUS := by
    apply map_eq_self_of_forall
    intro p hp
    have hne := h p hp
    simp [confirm_entry, hne]
  show { st with SUBSCRIPTION_STATUS := _ } = st
  rw [hmap]

/-- C4 (amended).  The confirmation lifecycle:
1. a subscribe that actually registers (endpoint not yet on the existing
   topic) writes a status entry `Not Subscribed` carrying a fresh token;
2. `do_confirm_subscription` rewrites every entry through
   `confirm_entry`, which sets `Subscribed` exactly when both the
   presented token and the presented topic ARN match the stored ones and
   leaves the entry unchanged otherwise;
3. when no entry matches (wrong token or wrong topic) the whole state is
   unchanged — a silent no-op;
4. neither `do_confirm_subscription` nor `do_unsubscribe` ever moves a
   status out of `Subscribed` (but `do_subscribe` can re-issue an entry:
   see the counterexample). -/
theorem confirmation_state_machine :
    (∀ (st : SnsState) (t e p arn : String) (attrs : List (String × String))
        (fp : Option FilterPolicy) (st' : SnsState) (conf : Option ConfirmationMsg),
        ((dictGet t st.SNS_SUBSCRIPTIONS).getD []).any (fun s => s.Endpoint = e) = false →
        do_subscribe st t e p arn attrs fp = .ok (st', conf) →
        dictGet arn st'.SUBSCRIPTION_STATUS =
          some ⟨t, st.uid_counter, "Not Subscribed"⟩) ∧
    (∀ (t : String) (tok : Nat) (v : SubStatus), v.Token = tok → v.TopicArn = t →
        confirm_entry t tok v = { v with Status := "Subscribed" }) ∧
    (∀ (t : String) (tok : Nat) (v : SubStatus), ¬(v.Token = tok ∧ v.TopicArn = t) →
        confirm_entry t tok v = v) ∧
    (∀ (st : SnsState) (t : String) (tok : Nat) (arn : String) (v : SubStatus),
        dictGet arn st.SUBSCRIPTION_STATUS = some v →
        dictGet arn (do_confirm_subscription st t tok).SUBSCRIPTION_STATUS =
          some (confirm_entry t tok v)) ∧
    (∀ (st : SnsState) (t : String) (tok : Nat),
        (∀ p ∈ st.SUBSCRIPTION_STATUS, ¬(p.2.Token = tok ∧ p.2.TopicArn = t)) →
        do_confirm_subscription st t tok = st) ∧
    (∀ (t : String) (tok : Nat) (v : SubStatus), v.Status = "Subscribed" →
        (confirm_entry t tok v).Status = "Subscribed") ∧
    (∀ (st : SnsState) (arn : String),
        (do_unsubscribe st arn).SUBSCRIPTION_STATUS = st.SUBSCRIPTION_STATUS) := by
  refine ⟨?_, ?_, ?_, ?_, do_confirm_noop, ?_, fun st arn => rfl⟩
  · intro st t e p arn attrs fp st' conf hend heq
    rw [do_subscribe] at heq
    rw [hend] at heq
    simp only [Bool.false_eq_true, if_false] at heq
    cases hget : dictGet t st.SNS_SUBSCRIPTIONS with
    | none => rw [hget] at heq; exact Except.noConfusion heq
    | some subs =>
      rw [hget] at heq
      simp only [] at heq
      by_cases hp : p = "http" ∨ p = "https"
      · rw [if_pos hp] at heq
        injection heq with hpair
        injection hpair with hst hconf
        subst hst
        simp [dictGet_dictSet]
      · rw [if_neg hp] at heq
        injection heq with hpair
        injection hpair with hst hconf
        subst hst
        simp [dictGet_dictSet]
  · intro t tok v h1 h2
    simp [confirm_entry, h1, h2]
  · intro t tok v h
    simp [confirm_entry, h]
  · intro st t tok arn v hget
    rw [do_confirm_dictGet, hget]
    rfl
  · intro t tok v h
    by_cases hc : v.Token = tok ∧ v.TopicArn = t
    · simp [confirm_entry, hc]
    · simp [confirm_entry, hc, h]

/-- C4 witness: the state-machine theorem applied at concrete inputs — a
fresh http subscribe writes a `Not Subscribed` entry with token `0`, and
a confirm with a non-matching token leaves a `Subscribed` state
untouched. -/
theorem confirmation_state_machine_witness :
    dictGet "A" (SnsState.SUBSCRIPTION_STATUS
        ⟨[("t", [⟨"t", "e", "http", "A", none, []⟩])],
         [("A", ⟨"t", 0, "Not Subscribed"⟩)], [], 2⟩) =
      some ⟨"t", 0, "Not Subscribed"⟩ ∧
    do_confirm_subscription ⟨[], [("A", ⟨"t", 5, "Subscribed"⟩)], [], 6⟩ "t" 4 =
      ⟨[], [("A", ⟨"t", 5, "Subscribed"⟩)], [], 6⟩ :=
  ⟨confirmation_state_machine.1 (do_create_topic initialState "t") "t" "e" "http" "A"
      [] none ⟨[("t", [⟨"t", "e", "http", "A", none, []⟩])],
        [("A", ⟨"t", 0, "Not Subscribed"⟩)], [], 2⟩ (some ⟨1, "t", "A"⟩) rfl rfl,
   confirmation_state_machine.2.2.2.2.1 ⟨[], [("A", ⟨"t", 5, "Subscribed"⟩)], [], 6⟩
     "t" 4 (by decide)⟩

/-- C4 counterexample.  The claim that no operation ever transitions a
status from `Subscribed` back to `Not Subscribed` is false: confirm a
subscription, unsubscribe it, and subscribe the same `(topic, endpoint,
subscription ARN)` again — `do_subscribe` overwrites the status entry
(the endpoint is no longer on the topic, so the idempotency guard does
not fire), resetting the already-`Subscribed` status to
`Not Subscribed`. -/
theorem confirmation_status_reset_counterexample :
    statusOf "A" (runOps [Op.createTopic "t", Op.subscribe "t" "e" "sqs" "A" [] none,
        Op.confirmSubscription "t" 0]) = some "Subscribed" ∧
    statusOf "A" (runOps [Op.createTopic "t", Op.subscribe "t" "e" "sqs" "A" [] none,
        Op.confirmSubscription "t" 0, Op.unsubscribe "A",
        Op.subscribe "t" "e" "sqs" "A" [] none]) = some "Not Subscribed" := by
  exact ⟨rfl, rfl⟩

/-- C5.  The `SubscribeURL` token of the outgoing
`SubscriptionConfirmation` message is drawn from the uid supply
independently of the token stored in the new status entry; under
freshness of the supply the two differ, and presenting the URL's token
to `do_confirm_subscription` on the same topic is a complete no-op: the
subscription stays `Not Subscribed`. -/
theorem http_confirmation_token_mismatch (st : SnsState)
    (t e p arn : String) (attrs : List (String × String)) (fp : Option FilterPolicy)
    (st' : SnsState) (conf : ConfirmationMsg) (hfresh : tokensFresh st)
    (heq : do_subscribe st t e p arn attrs fp = .ok (st', some conf)) :
    conf.token = st.uid_counter + 1 ∧
    dictGet arn st'.SUBSCRIPTION_STATUS = some ⟨t, st.uid_counter, "Not Subscribed"⟩ ∧
    conf.token ≠ st.uid_counter ∧
    do_confirm_subscription st' t conf.token = st' ∧
    statusOf arn st' = some "Not Subscribed" := by
  rw [do_subscribe] at heq
  by_cases hend : (((dictGet t st.SNS_SUBSCRIPTIONS).getD []).any
      (fun s => s.Endpoint = e)) = true
  · rw [if_pos hend] at heq
    injection heq with hpair
    injection hpair with _ hconf
    exact Option.noConfusion hconf
  · rw [if_neg hend] at heq
    cases hget : dictGet t st.SNS_SUBSCRIPTIONS with
    | none => rw [hget] at heq; exact Except.noConfusion heq
    | some subs =>
      rw [hget] at heq
      simp only [] at heq
      by_cases hp : p = "http" ∨ p = "https"
      · rw [if_pos hp] at heq
        injection heq with hpair
        injection hpair with hst hconf
        injection hconf with hc
        subst hst
        have htok : conf.token = st.uid_counter + 1 := by rw [← hc]
        refine ⟨htok, by simp [dictGet_dictSet], by rw [htok]; omega, ?_,
          by simp [statusOf, dictGet_dictSet]⟩
        apply do_confirm_noop
        intro q hq
        intro hcon
        rcases hcon with ⟨h1, _⟩
        rw [htok] at h1
        rcases mem_dictSet hq with hq' | hq'
        · subst hq'
          have h1' : st.uid_counter = st.uid_counter + 1 := h1
          omega
        · have := hfresh q hq'
          omega
      · rw [if_neg hp] at heq
        injection heq with hpair
        injection hpair with _ hconf
        exact Option.noConfusion hconf

/-- C5 witness: the mismatch theorem applied to a concrete http
subscribe on a fresh topic — the URL token is `1`, the stored token `0`,
and confirming with the URL token leaves the status `Not Subscribed`. -/
theorem http_confirmation_token_mismatch_witness :
    do_confirm_subscription ⟨[("t", [⟨"t", "e", "http", "A", none, []⟩])],
        [("A", ⟨"t", 0, "Not Subscribed"⟩)], [], 2⟩ "t"
        (ConfirmationMsg.token ⟨1, "t", "A"⟩) =
      ⟨[("t", [⟨"t", "e", "http", "A", none, []⟩])],
        [("A", ⟨"t", 0, "Not Subscribed"⟩)], [], 2⟩ ∧
    statusOf "A" ⟨[("t", [⟨"t", "e", "http", "A", none, []⟩])],
        [("A", ⟨"t", 0, "Not Subscribed"⟩)], [], 2⟩ = some "Not Subscribed" := by
  have h := http_confirmation_token_mismatch (do_create_topic initialState "t")
    "t" "e" "http" "A" [] none
    ⟨[("t", [⟨"t", "e", "http", "A", none, []⟩])],
      [("A", ⟨"t", 0, "Not Subscribed"⟩)], [], 2⟩ ⟨1, "t", "A"⟩
    (by intro p hp; simp [do_create_topic, initialState, dictGet] at hp) rfl
  exact ⟨h.2.2.2.1, h.2.2.2.2⟩

/-! ## C2: idempotent subscribe and the unique-endpoint invariant -/

theorem mem_update_first {α : Type} (p : α → Bool) (f : α → α) {x : α} :
    ∀ {l : List α}, x ∈ update_first p f l → x ∈ l ∨ ∃ y ∈ l, x = f y := by
  intro l
  induction l with
  | nil => intro h; simp [update_first] at h
  | cons z zs ih =>
    intro h
    by_cases hz : p z = true
    · simp only [update_first, hz, if_true, List.mem_cons] at h
      rcases h with h | h
      · exact Or.inr ⟨z, by simp, h⟩
      · exact Or.inl (List.mem_cons_of_mem _ h)
    · simp only [update_first, hz, Bool.false_eq_true, if_false, List.mem_cons] at h
      rcases h with h | h
      · exact Or.inl (by simp [h])
      · rcases ih h with h' | ⟨y, hy, hxy⟩
        · exact Or.inl (List.mem_cons_of_mem _ h')
        · exact Or.inr ⟨y, List.mem_cons_of_mem _ hy, hxy⟩

theorem map_update_first {α β : Type} (g : α → β) (p : α → Bool) (f : α → α)
    (hpres : ∀ x, g (f x) = g x) :
    ∀ l : List α, (update_first p f l).map g = l.map g := by
  intro l
  induction l with
  | nil => rfl
  | cons z zs ih =>
    by_cases hz : p z = true
    · simp [update_first, hz, hpres]
    · simp [update_first, hz, ih]

theorem length_filter_le_one_of_nodup_map {α : Type} (f : α → String) (e : String) :
    ∀ l : List α, (l.map f).Nodup → (l.filter (fun x => f x = e)).length ≤ 1 := by
  intro l
  induction l with
  | nil => intro _; simp
  | cons x xs ih =>
    intro h
    simp only [List.map_cons, List.nodup_cons] at h
    obtain ⟨hx, hxs⟩ := h
    by_cases he : f x = e
    · have hnil : xs.filter (fun y => f y = e) = [] := by
        apply List.filter_eq_nil_iff.mpr
        intro y hy
        simp only [decide_eq_true_eq]
        intro hc
        exact hx (by rw [he, ← hc]; exact List.mem_map_of_mem f hy)
      simp [List.filter_cons, he, hnil]
    · simpa [List.filter_cons, he] using ih hxs

theorem apply_attr_Endpoint (s : Subscription) (name value : String)
    (h : name ≠ "Endpoint") : (apply_attr s name value).Endpoint = s.Endpoint := by
  unfold apply_attr
  by_cases h1 : name = "TopicArn" <;> by_cases h3 : name = "Protocol" <;>
    by_cases h4 : name = "SubscriptionArn" <;> simp [h1, h3, h4, h]

theorem foldl_apply_attr_Endpoint (attrs : List (String × String)) :
    ∀ s : Subscription, (∀ kv ∈ attrs, kv.1 ≠ "Endpoint") →
      (attrs.foldl (fun acc kv => apply_attr acc kv.1 kv.2) s).Endpoint = s.Endpoint := by
  induction attrs with
  | nil => intro s _; rfl
  | cons kv rest ih =>
    intro s h
    rw [List.foldl_cons, ih _ (fun q hq => h q (List.mem_cons_of_mem _ hq)),
      apply_attr_Endpoint s kv.1 kv.2 (h kv (by simp))]

theorem do_subscribe_endpointsNodup (st : SnsState) (t e p arn : String)
    (attrs : List (String × String)) (fp : Option FilterPolicy)
    (hattrs : ∀ kv ∈ attrs, kv.1 ≠ "Endpoint")
    (h : endpointsNodup st) (st' : SnsState) (conf : Option ConfirmationMsg)
    (heq : do_subscribe st t e p arn attrs fp = .ok (st', conf)) :
    endpointsNodup st' := by
  rw [do_subscribe] at heq
  by_cases hend : (((dictGet t st.SNS_SUBSCRIPTIONS).getD []).any
      (fun s => s.Endpoint = e)) = true
  · rw [if_pos hend] at heq
    injection heq with hpair
    injection hpair with hst _
    rw [← hst]
    exact h
  · rw [if_neg hend] at heq
    cases hget : dictGet t st.SNS_SUBSCRIPTIONS with
    | none => rw [hget] at heq; exact Except.noConfusion heq
    | some subs =>
      rw [hget] at heq
      simp only [] at heq
      have hsubsmem : (t, subs) ∈ st.SNS_SUBSCRIPTIONS := dictGet_eq_some_mem hget
      have hnodup : (subs.map Subscription.Endpoint).Nodup := h _ hsubsmem
      have hnotmem : e ∉ subs.map Subscription.Endpoint := by
        intro hc
        obtain ⟨s, hs, hse⟩ := List.mem_map.mp hc
        apply hend
        rw [hget]
        simp only [Option.getD_some, List.any_eq_true]
        exact ⟨s, hs, by simp [hse]⟩
      have hEnd : (attrs.foldl (fun acc kv => apply_attr acc kv.1 kv.2)
          ⟨t, e, p, arn, fp, []⟩).Endpoint = e :=
        foldl_apply_attr_Endpoint attrs ⟨t, e, p, arn, fp, []⟩ hattrs
      have hkey : endpointsNodup
          { st with
            SNS_SUBSCRIPTIONS := dictSet t
              (subs ++ [attrs.foldl (fun acc kv => apply_attr acc kv.1 kv.2)
                ⟨t, e, p, arn, fp, []⟩]) st.SNS_SUBSCRIPTIONS
            SUBSCRIPTION_STATUS := dictSet arn ⟨t, st.uid_counter, "Not Subscribed"⟩
              st.SUBSCRIPTION_STATUS
            uid_counter := st.uid_counter + 1 } := by
        intro q hq
        rcases mem_dictSet hq with hq' | hq'
        · subst hq'
          simp only [List.map_append, List.map_cons, List.map_nil]
          rw [hEnd, List.nodup_append]
          refine ⟨hnodup, List.nodup_singleton _, ?_⟩
          intro a ha hb
          simp only [List.mem_singleton] at hb
          subst hb
          exact hnotmem ha
        · exact h _ hq'
      by_cases hp : p = "http" ∨ p = "https"
      · rw [if_pos hp] at heq
        injection heq with hpair
        injection hpair with hst _
        rw [← hst]
        exact hkey
      · rw [if_neg hp] at heq
        injection heq with hpair
        injection hpair with hst _
        rw [← hst]
        exact hkey

theorem applyOp_endpointsNodup (st : SnsState) (op : Op)
    (hpres : op_preserves_endpoint_key op) (h : endpointsNodup st) :
    endpointsNodup (applyOp st op) := by
  cases op with
  | createTopic t =>
    simp only [applyOp, do_create_topic]
    by_cases hc : dictGet t st.SNS_SUBSCRIPTIONS = none
    · rw [if_pos hc]
      intro q hq
      rcases List.mem_append.mp hq with hq' | hq'
      · exact h _ hq'
      · simp only [List.mem_singleton] at hq'
        subst hq'
        simp
    · rw [if_neg hc]; exact h
  | deleteTopic t =>
    intro q hq
    exact h _ (List.mem_of_mem_filter hq)
  | subscribe t e p arn attrs fp =>
    have hattrs : ∀ kv ∈ attrs, kv.1 ≠ "Endpoint" := hpres
    simp only [applyOp]
    cases heq : do_subscribe st t e p arn attrs fp with
    | ok r =>
      obtain ⟨st', conf⟩ := r
      exact do_subscribe_endpointsNodup st t e p arn attrs fp hattrs h st' conf heq
    | error msg => exact h
  | unsubscribe arn =>
    intro q hq
    simp only [applyOp, do_unsubscribe] at hq
    obtain ⟨r, hr, hrq⟩ := List.mem_map.mp hq
    rw [← hrq]
    simp only
    have hsub : (r.2.filter (fun sub => sub.SubscriptionArn ≠ arn)).map
        Subscription.Endpoint |>.Sublist (r.2.map Subscription.Endpoint) :=
      (List.filter_sublist r.2).map Subscription.Endpoint
    exact (h _ hr).sublist hsub
  | confirmSubscription t tok => exact h
  | setSubscriptionAttribute arn n v =>
    have hname : n ≠ "Endpoint" := hpres
    intro q hq
    simp only [applyOp, set_subscription_attribute] at hq
    rcases mem_update_first _ _ hq with hq' | ⟨y, hy, hqy⟩
    · exact h _ hq'
    · rw [hqy]
      simp only
      have hm := map_update_first Subscription.Endpoint
        (fun s => decide (s.SubscriptionArn = arn))
        (fun s => apply_attr s n v)
        (fun s => apply_attr_Endpoint s n v hname) y.2
      rw [hm]
      exact h _ hy
  | tagResource t tags => exact h
  | untagResource t keys => exact h

theorem foldl_applyOp_endpointsNodup (ops : List Op) :
    ∀ st : SnsState, (∀ op ∈ ops, op_preserves_endpoint_key op) →
      endpointsNodup st → endpointsNodup (ops.foldl applyOp st) := by
  induction ops with
  | nil => intro st _ h; exact h
  | cons op rest ih =>
    intro st hpres h
    exact ih _ (fun o ho => hpres o (List.mem_cons_of_mem _ ho))
      (applyOp_endpointsNodup st op (hpres op (by simp)) h)

/-- C2 (amended).  Idempotent subscribe and the unique-endpoint
invariant: a subscribe whose endpoint is already on the topic returns
immediately with the state unmodified (no appended subscription, no
fresh token, no status write) — unconditionally; and every state
reachable from the initial state by operations that never write the
`Endpoint` key through the raw attribute routes (a subscribe attribute
dict or a `SetSubscriptionAttributes` name) has pairwise-distinct
endpoints on every topic, hence at most one subscription per (topic,
endpoint).  Operations that do write `Endpoint` can store duplicates:
see the counterexample. -/
theorem idempotent_subscribe_unique_endpoints :
    (∀ (st : SnsState) (t e p arn : String) (attrs : List (String × String))
        (fp : Option FilterPolicy),
        ((dictGet t st.SNS_SUBSCRIPTIONS).getD []).any (fun s => s.Endpoint = e) = true →
        do_subscribe st t e p arn attrs fp = .ok (st, none)) ∧
    (∀ ops : List Op, (∀ op ∈ ops, op_preserves_endpoint_key op) →
        endpointsNodup (runOps ops)) ∧
    (∀ (ops : List Op) (t e : String), (∀ op ∈ ops, op_preserves_endpoint_key op) →
        ((((dictGet t (runOps ops).SNS_SUBSCRIPTIONS).getD []).filter
          (fun s => s.Endpoint = e)).length ≤ 1)) := by
  have hrun : ∀ ops : List Op, (∀ op ∈ ops, op_preserves_endpoint_key op) →
      endpointsNodup (runOps ops) := by
    intro ops hpres
    apply foldl_applyOp_endpointsNodup ops _ hpres
    intro q hq
    simp [initialState] at hq
  refine ⟨?_, hrun, ?_⟩
  · intro st t e p arn attrs fp hend
    rw [do_subscribe, if_pos hend]
  · intro ops t e hpres
    cases hget : dictGet t (runOps ops).SNS_SUBSCRIPTIONS with
    | none => simp
    | some subs =>
      simp only [Option.getD_some]
      exact length_filter_le_one_of_nodup_map Subscription.Endpoint e subs
        (hrun ops hpres _ (dictGet_eq_some_mem hget))

/-- C2 counterexample.  The claimed invariant — over every operation
sequence, no topic ever holds two subscriptions with the same endpoint —
is false on the code: `subscription.update(attributes)` runs *after* the
idempotency guard (which only reads the `endpoint` argument), so a
subscribe whose wire attribute dict overrides `Endpoint` appends a
subscription duplicating an existing endpoint. -/
theorem endpoint_override_duplicate_counterexample :
    ((dictGet "t" (runOps [Op.createTopic "t",
        Op.subscribe "t" "e1" "sqs" "A1" [] none,
        Op.subscribe "t" "e2" "sqs" "A2" [("Endpoint", "e1")] none]).SNS_SUBSCRIPTIONS).getD
      []).map Subscription.Endpoint = ["e1", "e1"] := by decide

/-- C2 witness: re-subscribing the already-subscribed endpoint of a
concrete one-subscription state is a complete no-op, and the invariant
holds for a concrete run whose operations never write `Endpoint`, both
by the theorem. -/
theorem idempotent_subscribe_unique_endpoints_witness :
    (do_subscribe ⟨[("t", [⟨"t", "e", "sqs", "A", none, []⟩])],
        [("A", ⟨"t", 0, "Not Subscribed"⟩)], [], 1⟩ "t" "e" "sqs" "B" [] none =
      .ok (⟨[("t", [⟨"t", "e", "sqs", "A", none, []⟩])],
        [("A", ⟨"t", 0, "Not Subscribed"⟩)], [], 1⟩, none)) ∧
    endpointsNodup (runOps [Op.createTopic "t", Op.subscribe "t" "e" "sqs" "A" [] none]) :=
  ⟨idempotent_subscribe_unique_endpoints.1 _ "t" "e" "sqs" "B" [] none (by decide),
   idempotent_subscribe_unique_endpoints.2.1 _ (by
     intro op hop
     fin_cases hop <;> simp [op_preserves_endpoint_key])⟩

/-! ## C1: fanout behavior of `publish_message` under transport failure -/

/-- C9 witness: the array-attribute characterization instantiated at the
spec's example — element `y` satisfies the bare condition `y`. -/
theorem array_attribute_any_element_matches_witness :
    evaluate_filter_policy_conditions [Condition.bare (.str "y")]
      ⟨"String.Array", .arr [.str "x", .str "y"]⟩ = true :=
  (array_attribute_any_element_matches.1 [Condition.bare (.str "y")]
      [.str "x", .str "y"]).mpr
    ⟨.str "y", by simp, Condition.bare (.str "y"), by simp, by decide⟩
